import Mathlib

/-!
Verification of the watermark job-processing pipeline of the shopify_watermark
repository: position engine, layer compositor encoding, scope resolver,
apply worker, job counters, and rollback reconciler, each embedded shallowly
from the JavaScript sources.
-/

namespace WatermarkSpec

/-! ## Position Engine (constants/watermark.js, getPositionCoordinates) -/

/-- Pixel offset returned by the position engine.  JS numbers are modelled
as exact rationals. -/
structure Coords where
  x : ℚ
  y : ℚ
deriving DecidableEq, Repr

/-- The nine named anchors of WATERMARK_POSITIONS. -/
def WATERMARK_POSITIONS : List String :=
  ["top-left", "top-center", "top-right",
   "middle-left", "center", "middle-right",
   "bottom-left", "bottom-center", "bottom-right"]

/-- Embedding of getPositionCoordinates.  The JS switch compares the position
argument against the nine anchor strings; any other value, including null and
undefined (modelled by none), falls through to the shared BOTTOM_RIGHT or
default branch.  The source function takes exactly these six parameters. -/
def getPositionCoordinates (position : Option String)
    (imageWidth imageHeight watermarkWidth watermarkHeight margin : ℚ) : Coords :=
  match position with
  | some "top-left" => { x := margin, y := margin }
  | some "top-center" => { x := (imageWidth - watermarkWidth) / 2, y := margin }
  | some "top-right" => { x := imageWidth - watermarkWidth - margin, y := margin }
  | some "middle-left" => { x := margin, y := (imageHeight - watermarkHeight) / 2 }
  | some "center" =>
      { x := (imageWidth - watermarkWidth) / 2, y := (imageHeight - watermarkHeight) / 2 }
  | some "middle-right" =>
      { x := imageWidth - watermarkWidth - margin, y := (imageHeight - watermarkHeight) / 2 }
  | some "bottom-left" => { x := margin, y := imageHeight - watermarkHeight - margin }
  | some "bottom-center" =>
      { x := (imageWidth - watermarkWidth) / 2, y := imageHeight - watermarkHeight - margin }
  | _ =>
      { x := imageWidth - watermarkWidth - margin, y := imageHeight - watermarkHeight - margin }

/-- The coordinate computation performed by the compositor callers
(_prepareLayers, applyLogoWatermark, applyTextWatermark, applyWatermark).
Each call site passes the custom placement pair as a seventh argument, but the
six-parameter getPositionCoordinates declares no such parameter, so JavaScript
drops the extra argument: the result is the named-anchor placement regardless
of the useCustomPlacement flag and the percentages. -/
def prepareLayerCoords (useCustomPlacement : Bool) (xPct yPct : ℚ)
    (position : Option String)
    (imageWidth imageHeight watermarkWidth watermarkHeight margin : ℚ) : Coords :=
  getPositionCoordinates position imageWidth imageHeight watermarkWidth watermarkHeight margin

/-- Modelled from the spec: the intended custom placement puts the center of
the overlay at the given percentages of the canvas dimensions, so the top-left
offset is the center minus half the overlay size. -/
def customCenterPlacement (xPct yPct imageWidth imageHeight watermarkWidth watermarkHeight : ℚ) :
    Coords :=
  { x := imageWidth * xPct / 100 - watermarkWidth / 2,
    y := imageHeight * yPct / 100 - watermarkHeight / 2 }

/-- Evaluation of the top-left branch. -/
theorem gpcTopLeft (W H w h m : ℚ) :
    getPositionCoordinates (some "top-left") W H w h m = { x := m, y := m } := rfl

/-- Evaluation of the top-center branch. -/
theorem gpcTopCenter (W H w h m : ℚ) :
    getPositionCoordinates (some "top-center") W H w h m
      = { x := (W - w) / 2, y := m } := rfl

/-- Evaluation of the top-right branch. -/
theorem gpcTopRight (W H w h m : ℚ) :
    getPositionCoordinates (some "top-right") W H w h m
      = { x := W - w - m, y := m } := rfl

/-- Evaluation of the middle-left branch. -/
theorem gpcMiddleLeft (W H w h m : ℚ) :
    getPositionCoordinates (some "middle-left") W H w h m
      = { x := m, y := (H - h) / 2 } := rfl

/-- Evaluation of the center branch. -/
theorem gpcCenter (W H w h m : ℚ) :
    getPositionCoordinates (some "center") W H w h m
      = { x := (W - w) / 2, y := (H - h) / 2 } := rfl

/-- Evaluation of the middle-right branch. -/
theorem gpcMiddleRight (W H w h m : ℚ) :
    getPositionCoordinates (some "middle-right") W H w h m
      = { x := W - w - m, y := (H - h) / 2 } := rfl

/-- Evaluation of the bottom-left branch. -/
theorem gpcBottomLeft (W H w h m : ℚ) :
    getPositionCoordinates (some "bottom-left") W H w h m
      = { x := m, y := H - h - m } := rfl

/-- Evaluation of the bottom-center branch. -/
theorem gpcBottomCenter (W H w h m : ℚ) :
    getPositionCoordinates (some "bottom-center") W H w h m
      = { x := (W - w) / 2, y := H - h - m } := rfl

/-- Evaluation of the bottom-right branch. -/
theorem gpcBottomRight (W H w h m : ℚ) :
    getPositionCoordinates (some "bottom-right") W H w h m
      = { x := W - w - m, y := H - h - m } := rfl

/-- C5: for every anchor of the 9-point grid, when the overlay plus margins
fits in the canvas, the returned offset keeps the overlay inside the canvas
minus the margin; top-left gives (margin, margin) and bottom-right its mirror;
the center anchors ignore the margin on the centered axis. -/
theorem position_grid_bounds_symmetric
    (W H w h m m2 : ℚ) (hm : 0 ≤ m) (hw : w + 2 * m ≤ W) (hh : h + 2 * m ≤ H) :
    (∀ pos ∈ WATERMARK_POSITIONS,
      m ≤ (getPositionCoordinates (some pos) W H w h m).x ∧
      (getPositionCoordinates (some pos) W H w h m).x + w ≤ W - m ∧
      m ≤ (getPositionCoordinates (some pos) W H w h m).y ∧
      (getPositionCoordinates (some pos) W H w h m).y + h ≤ H - m) ∧
    getPositionCoordinates (some "top-left") W H w h m = { x := m, y := m } ∧
    getPositionCoordinates (some "bottom-right") W H w h m
      = { x := W - w - m, y := H - h - m } ∧
    (getPositionCoordinates (some "top-center") W H w h m).x
      = (getPositionCoordinates (some "top-center") W H w h m2).x ∧
    (getPositionCoordinates (some "bottom-center") W H w h m).x
      = (getPositionCoordinates (some "bottom-center") W H w h m2).x ∧
    (getPositionCoordinates (some "middle-left") W H w h m).y
      = (getPositionCoordinates (some "middle-left") W H w h m2).y ∧
    (getPositionCoordinates (some "middle-right") W H w h m).y
      = (getPositionCoordinates (some "middle-right") W H w h m2).y ∧
    (getPositionCoordinates (some "center") W H w h m)
      = (getPositionCoordinates (some "center") W H w h m2) := by
  refine ⟨?_, ?_, ?_, ?_, ?_, ?_, ?_, ?_⟩
  · intro pos hpos
    simp only [WATERMARK_POSITIONS, List.mem_cons, List.mem_singleton,
      List.not_mem_nil, or_false] at hpos
    rcases hpos with rfl | rfl | rfl | rfl | rfl | rfl | rfl | rfl | rfl
    · rw [gpcTopLeft]; refine ⟨?_, ?_, ?_, ?_⟩ <;> dsimp only <;> linarith
    · rw [gpcTopCenter]; refine ⟨?_, ?_, ?_, ?_⟩ <;> dsimp only <;> linarith
    · rw [gpcTopRight]; refine ⟨?_, ?_, ?_, ?_⟩ <;> dsimp only <;> linarith
    · rw [gpcMiddleLeft]; refine ⟨?_, ?_, ?_, ?_⟩ <;> dsimp only <;> linarith
    · rw [gpcCenter]; refine ⟨?_, ?_, ?_, ?_⟩ <;> dsimp only <;> linarith
    · rw [gpcMiddleRight]; refine ⟨?_, ?_, ?_, ?_⟩ <;> dsimp only <;> linarith
    · rw [gpcBottomLeft]; refine ⟨?_, ?_, ?_, ?_⟩ <;> dsimp only <;> linarith
    · rw [gpcBottomCenter]; refine ⟨?_, ?_, ?_, ?_⟩ <;> dsimp only <;> linarith
    · rw [gpcBottomRight]; refine ⟨?_, ?_, ?_, ?_⟩ <;> dsimp only <;> linarith
  · rfl
  · rfl
  · rfl
  · rfl
  · rfl
  · rfl
  · rfl

/-- C5 witness: concrete instantiation of the grid bounds theorem. -/
theorem position_grid_bounds_symmetric_witness :
    (20 : ℚ) ≤ (getPositionCoordinates (some "center") 800 600 100 50 20).x ∧
    getPositionCoordinates (some "top-left") 800 600 100 50 20 = { x := 20, y := 20 } := by
  have h := position_grid_bounds_symmetric 800 600 100 50 20 7
    (by norm_num) (by norm_num) (by norm_num)
  exact ⟨(h.1 "center" (by decide)).1, h.2.1⟩

/-- C10: every position argument that is not one of the nine anchor names,
including none (null or undefined), falls through to the default branch and
yields the bottom-right placement. -/
theorem position_default_bottom_right
    (pos : Option String) (hpos : ∀ s, pos = some s → s ∉ WATERMARK_POSITIONS)
    (W H w h m : ℚ) :
    getPositionCoordinates pos W H w h m
      = { x := W - w - m, y := H - h - m } := by
  unfold getPositionCoordinates
  split
  · exact (hpos _ rfl (by decide)).elim
  · exact (hpos _ rfl (by decide)).elim
  · exact (hpos _ rfl (by decide)).elim
  · exact (hpos _ rfl (by decide)).elim
  · exact (hpos _ rfl (by decide)).elim
  · exact (hpos _ rfl (by decide)).elim
  · exact (hpos _ rfl (by decide)).elim
  · exact (hpos _ rfl (by decide)).elim
  · rfl

/-- C10 witness: the string custom and the null position both give the
bottom-right placement. -/
theorem position_default_bottom_right_witness :
    getPositionCoordinates (some "custom") 800 600 100 50 20 = { x := 680, y := 530 } ∧
    getPositionCoordinates none 800 600 100 50 20 = { x := 680, y := 530 } := by
  constructor
  · have h := position_default_bottom_right (some "custom")
      (by intro s hs; cases hs; decide) 800 600 100 50 20
    rw [h]; simp only [Coords.mk.injEq]; norm_num
  · have h := position_default_bottom_right none
      (by intro s hs; cases hs) 800 600 100 50 20
    rw [h]; simp only [Coords.mk.injEq]; norm_num

/-- C6: with custom placement enabled and logo percentages (50, 50), the
compositor call sites still receive the named-anchor placement, because the
seventh argument is dropped by the six-parameter getPositionCoordinates; the
result is not the center-based placement the spec requires. -/
theorem custom_placement_ignored :
    prepareLayerCoords true 50 50 (some "bottom-right") 800 600 100 50 20
      = { x := 680, y := 530 } ∧
    customCenterPlacement 50 50 800 600 100 50 = { x := 350, y := 275 } ∧
    prepareLayerCoords true 50 50 (some "bottom-right") 800 600 100 50 20
      ≠ customCenterPlacement 50 50 800 600 100 50 := by
  refine ⟨?_, ?_, ?_⟩
  · simp only [prepareLayerCoords, gpcBottomRight, Coords.mk.injEq]; norm_num
  · simp only [customCenterPlacement, Coords.mk.injEq]; norm_num
  · simp only [prepareLayerCoords, gpcBottomRight, customCenterPlacement,
      ne_eq, Coords.mk.injEq]
    norm_num

/-! ## Layer Compositor output encoding (watermarkProcessor.js, imageEngine.js) -/

/-- Image format reported by the sharp metadata probe. -/
inductive ImgFormat
  | jpeg
  | png
  | webp
  | otherFormat (name : String)
deriving DecidableEq, Repr

/-- The re-encoding applied to the composited stream: target format together
with the quality and progressive options passed to sharp. -/
structure EncodeSpec where
  format : ImgFormat
  quality : Option Nat
  progressive : Bool
deriving DecidableEq, Repr

/-- Embedding of the output-format selection in WatermarkProcessor.process:
the format is the probe result, defaulting to jpeg when absent; png is
re-encoded as png (compressionLevel 9), webp as webp (quality 85), and
everything else as jpeg with quality 90 and progressive encoding. -/
def processEncode (probeFormat : Option ImgFormat) : EncodeSpec :=
  let format := probeFormat.getD ImgFormat.jpeg
  match format with
  | ImgFormat.png => { format := ImgFormat.png, quality := none, progressive := false }
  | ImgFormat.webp => { format := ImgFormat.webp, quality := some 85, progressive := false }
  | _ => { format := ImgFormat.jpeg, quality := some 90, progressive := true }

/-- IMAGE_LIMITS.MAX_DIMENSION. -/
def MAX_DIMENSION : Nat := 10000

/-- IMAGE_LIMITS.MIN_DIMENSION. -/
def MIN_DIMENSION : Nat := 100

/-- Embedding of validateImage from the image engine: only jpeg, png and webp
pass, and both dimensions must lie inside the configured range. -/
def validateImage (format : ImgFormat) (width height : Nat) : Except String ImgFormat :=
  if format = ImgFormat.jpeg ∨ format = ImgFormat.png ∨ format = ImgFormat.webp then
    if MAX_DIMENSION < width ∨ MAX_DIMENSION < height then
      Except.error "Image too large"
    else if width < MIN_DIMENSION ∨ height < MIN_DIMENSION then
      Except.error "Image too small"
    else
      Except.ok format
  else
    Except.error "Unsupported format"

/-- Embedding of the single-pass applyWatermark of the image engine: after
download, hashing and validateImage, the composited pipeline is always
finished with .jpeg(quality 90, progressive, mozjpeg), whatever the source
format was.  The buffer-based applyLogoWatermark and applyTextWatermark end
with the same unconditional .jpeg(quality 90) call. -/
def applyWatermark (sourceFormat : ImgFormat) (width height : Nat) :
    Except String EncodeSpec :=
  (validateImage sourceFormat width height).map
    (fun _ => { format := ImgFormat.jpeg, quality := some 90, progressive := true })

/-- C4 counterexample: a valid png source run through the image-engine
applyWatermark is re-encoded as jpeg, so the format is silently changed. -/
theorem compositor_format_counterexample :
    applyWatermark ImgFormat.png 800 600
      = Except.ok { format := ImgFormat.jpeg, quality := some 90, progressive := true } ∧
    ImgFormat.jpeg ≠ ImgFormat.png := by
  exact ⟨rfl, by decide⟩

/-- C4 amended: the streaming WatermarkProcessor.process preserves the format
family (jpeg stays jpeg with quality 90 and progressive encoding, png stays
png, webp stays webp, a missing probe format defaults to jpeg), while the
buffer-based image-engine applyWatermark always re-encodes to jpeg with
quality 90 regardless of the source format. -/
theorem compositor_format_amended :
    processEncode (some ImgFormat.jpeg)
      = { format := ImgFormat.jpeg, quality := some 90, progressive := true } ∧
    (processEncode (some ImgFormat.png)).format = ImgFormat.png ∧
    (processEncode (some ImgFormat.webp)).format = ImgFormat.webp ∧
    (processEncode none).format = ImgFormat.jpeg ∧
    (∀ f w h spec, applyWatermark f w h = Except.ok spec →
      spec.format = ImgFormat.jpeg) := by
  refine ⟨rfl, rfl, rfl, rfl, ?_⟩
  intro f w h spec hok
  unfold applyWatermark at hok
  cases hval : validateImage f w h with
  | error e =>
      rw [hval] at hok
      simp only [Except.map] at hok
      exact Except.noConfusion hok
  | ok v =>
      rw [hval] at hok
      simp only [Except.map, Except.ok.injEq] at hok
      rw [← hok]

/-- C4 amended witness: a webp source through applyWatermark comes out jpeg. -/
theorem compositor_format_amended_witness :
    applyWatermark ImgFormat.webp 800 600
      = Except.ok { format := ImgFormat.jpeg, quality := some 90, progressive := true } ∧
    (EncodeSpec.format
      { format := ImgFormat.jpeg, quality := some 90, progressive := true })
      = ImgFormat.jpeg := by
  exact ⟨rfl, compositor_format_amended.2.2.2.2 ImgFormat.webp 800 600 _ rfl⟩

/-! ## Scope Resolver (resolveProductIds in watermarkWorker.js) -/

/-- One page returned by the paginated catalog query: the extracted edge ids
and pageInfo.hasNextPage. -/
structure ProductPage where
  ids : List String
  hasNextPage : Bool
deriving DecidableEq, Repr

/-- Result of one page fetch: either a page or a thrown request error. -/
inductive FetchResult
  | ok (page : ProductPage)
  | fetchError (message : String)
deriving DecidableEq, Repr

/-- The scope_value of a job: the manual branch wraps a non-array value in a
singleton list (Array.isArray check). -/
inductive ScopeValue
  | list (ids : List String)
  | single (value : String)
deriving DecidableEq, Repr

/-- SCOPE_TYPE enum. -/
inductive ScopeType
  | all
  | collection
  | manual
deriving DecidableEq, Repr

/-- Embedding of the pagination loop of resolveProductIds: append the page
ids to the accumulator, then break when the accumulated count exceeds 5000,
else continue while hasNextPage; a thrown page fetch propagates out. -/
def resolveLoop : List FetchResult → List String → Except String (List String)
  | [], acc => Except.ok acc
  | FetchResult.fetchError e :: _, _ => Except.error e
  | FetchResult.ok page :: rest, acc =>
      let acc2 := acc ++ page.ids
      if 5000 < acc2.length then Except.ok acc2
      else if page.hasNextPage then resolveLoop rest acc2
      else Except.ok acc2

/-- Embedding of resolveProductIds: MANUAL scope returns the given value
verbatim (wrapping a non-array in a singleton); ALL and COLLECTION scope run
the pagination loop over the page sequence the catalog would serve. -/
def resolveProductIds (scopeType : ScopeType) (scopeValue : ScopeValue)
    (pages : List FetchResult) : Except String (List String) :=
  match scopeType with
  | ScopeType.manual =>
      match scopeValue with
      | ScopeValue.list ids => Except.ok ids
      | ScopeValue.single v => Except.ok [v]
  | _ => resolveLoop pages []

/-- A catalog of 6000 products served in pages of 2600: the loop only checks
the cap after appending a whole page. -/
def capPages : List FetchResult :=
  [FetchResult.ok { ids := List.replicate 2600 "gid0", hasNextPage := true },
   FetchResult.ok { ids := List.replicate 2600 "gid1", hasNextPage := true },
   FetchResult.ok { ids := List.replicate 800 "gid2", hasNextPage := false }]

/-- Step equation of the loop on a successfully fetched page. -/
theorem resolveLoop_cons_ok (page : ProductPage) (rest : List FetchResult)
    (acc : List String) :
    resolveLoop (FetchResult.ok page :: rest) acc =
      if 5000 < (acc ++ page.ids).length then Except.ok (acc ++ page.ids)
      else if page.hasNextPage then resolveLoop rest (acc ++ page.ids)
      else Except.ok (acc ++ page.ids) := rfl

/-- C2 counterexample: on a catalog exceeding the cap the resolver returns
5200 entries, not exactly 5000, because the break fires only after a whole
page has been appended. -/
theorem scope_cap_counterexample :
    (resolveProductIds ScopeType.all (ScopeValue.list []) capPages).toOption.map List.length
      = some 5200 ∧ (5200 : Nat) ≠ 5000 := by
  constructor
  · show (resolveLoop capPages []).toOption.map List.length = some 5200
    rw [capPages, resolveLoop_cons_ok, List.nil_append]
    rw [if_neg (by rw [List.length_replicate]; decide)]
    rw [if_pos rfl]
    rw [resolveLoop_cons_ok]
    rw [if_pos (by
      rw [List.length_append, List.length_replicate, List.length_replicate]; decide)]
    show some ((List.replicate 2600 "gid0" ++ List.replicate 2600 "gid1").length)
      = some 5200
    rw [List.length_append, List.length_replicate, List.length_replicate]
  · decide

/-- The loop result stays within one page of the cap. -/
theorem resolveLoop_length_le (P : Nat) :
    ∀ (pages : List FetchResult) (acc : List String),
      (∀ r ∈ pages, ∀ page, r = FetchResult.ok page → page.ids.length ≤ P) →
      acc.length ≤ 5000 →
      ∀ l, resolveLoop pages acc = Except.ok l → l.length ≤ 5000 + P := by
  intro pages
  induction pages with
  | nil =>
      intro acc _ hacc l hl
      simp only [resolveLoop, Except.ok.injEq] at hl
      subst hl
      omega
  | cons r rest ih =>
      intro acc hP hacc l hl
      cases r with
      | fetchError e =>
          simp only [resolveLoop] at hl
          exact Except.noConfusion hl
      | ok page =>
          have hpage : page.ids.length ≤ P := hP _ (List.mem_cons_self _ _) page rfl
          have hlen : (acc ++ page.ids).length ≤ 5000 + P := by
            rw [List.length_append]; omega
          simp only [resolveLoop] at hl
          by_cases hcap : 5000 < (acc ++ page.ids).length
          · rw [if_pos hcap] at hl
            simp only [Except.ok.injEq] at hl
            subst hl
            exact hlen
          · rw [if_neg hcap] at hl
            rw [List.length_append] at hcap
            by_cases hnext : page.hasNextPage = true
            · rw [if_pos hnext] at hl
              exact ih (acc ++ page.ids)
                (fun r hr pg hpg => hP r (List.mem_cons_of_mem _ hr) pg hpg)
                (by rw [List.length_append]; omega) l hl
            · rw [if_neg hnext] at hl
              simp only [Except.ok.injEq] at hl
              subst hl
              rw [List.length_append]
              omega

/-- C2 amended: for ALL and COLLECTION scope the resolver accumulates page by
page until no next page, stopping early once the accumulated count exceeds
5000; truncation happens at page granularity, so the result is bounded by
5000 plus the largest page size (not exactly 5000); an error on a fetched
page aborts resolution and propagates; MANUAL scope returns the list
verbatim. -/
theorem scope_resolution_amended (pages : List FetchResult) (P : Nat)
    (hP : ∀ r ∈ pages, ∀ page, r = FetchResult.ok page → page.ids.length ≤ P) :
    (∀ l, resolveProductIds ScopeType.all (ScopeValue.list []) pages = Except.ok l →
      l.length ≤ 5000 + P) ∧
    (∀ e rest, resolveProductIds ScopeType.all (ScopeValue.list [])
      (FetchResult.fetchError e :: rest) = Except.error e) ∧
    (∀ ids v, resolveProductIds ScopeType.manual (ScopeValue.list ids) v
      = Except.ok ids) := by
  refine ⟨?_, ?_, ?_⟩
  · intro l hl
    exact resolveLoop_length_le P pages [] hP (by simp) l hl
  · intro e rest
    rfl
  · intro ids v
    rfl

/-- C2 amended witness: a single final page of one id resolves to that id and
respects the bound. -/
theorem scope_resolution_amended_witness :
    resolveProductIds ScopeType.all (ScopeValue.list [])
      [FetchResult.ok { ids := ["gidA"], hasNextPage := false }] = Except.ok ["gidA"] ∧
    (["gidA"] : List String).length ≤ 5000 + 1 := by
  refine ⟨rfl, ?_⟩
  exact (scope_resolution_amended
    [FetchResult.ok { ids := ["gidA"], hasNextPage := false }] 1
    (by intro r hr page hpg
        simp only [List.mem_singleton] at hr
        subst hr
        cases hpg
        decide)).1 ["gidA"] rfl


/-! ## Job Orchestrator, apply path (watermarkWorker) -/

/-- JOB_STATUS enum. -/
inductive JobStatus
  | pending
  | processing
  | completed
  | failed
  | cancelled
  | rolled_back
deriving DecidableEq, Repr

/-- Observable outcome of one apply-worker run. -/
structure ApplyRunResult where
  status : JobStatus
  total_products : Nat
  processed_products : Nat
  failed_products : Nat
deriving DecidableEq, Repr

/-- The per-product loop of the apply worker: processProduct either succeeds
(the oracle ok gives true for that product index) and processed_products is
incremented, or throws, the exception is caught, failed_products is
incremented, and the loop continues with the remaining products. -/
def processProducts (ok : Nat → Bool) : List String → Nat → Nat × Nat → Nat × Nat
  | [], _, acc => acc
  | _ :: rest, i, (p, f) =>
      if ok i then processProducts ok rest (i + 1) (p + 1, f)
      else processProducts ok rest (i + 1) (p, f + 1)

/-- Number of successes the oracle reports on the index window
starting at i of the given length. -/
def countOkFrom (ok : Nat → Bool) : Nat → Nat → Nat
  | _, 0 => 0
  | i, len + 1 => (if ok i then 1 else 0) + countOkFrom ok (i + 1) len

/-- Embedding of the apply worker body: loading a missing Job record throws
before any processing and the catch marks the job FAILED; a scope-resolution
error likewise escapes to the catch; otherwise the total is set to the
resolved count, every product is attempted, and the job is completed. -/
def watermarkWorkerRun (jobFound : Bool) (resolved : Except String (List String))
    (ok : Nat → Bool) : ApplyRunResult :=
  match jobFound with
  | false =>
      { status := JobStatus.failed, total_products := 0,
        processed_products := 0, failed_products := 0 }
  | true =>
      match resolved with
      | Except.error _ =>
          { status := JobStatus.failed, total_products := 0,
            processed_products := 0, failed_products := 0 }
      | Except.ok ids =>
          { status := JobStatus.completed, total_products := ids.length,
            processed_products := (processProducts ok ids 0 (0, 0)).1,
            failed_products := (processProducts ok ids 0 (0, 0)).2 }

/-- The window success count is bounded by the window length. -/
theorem countOkFrom_le (ok : Nat → Bool) :
    ∀ (len i : Nat), countOkFrom ok i len ≤ len := by
  intro len
  induction len with
  | zero => intro i; simp [countOkFrom]
  | succ n ih =>
      intro i
      simp only [countOkFrom]
      have := ih (i + 1)
      by_cases hcase : ok i <;> simp [hcase] <;> omega

/-- The loop adds the per-window success and failure counts to the incoming
accumulator. -/
theorem processProducts_eq (ok : Nat → Bool) :
    ∀ (ids : List String) (i p f : Nat),
      processProducts ok ids i (p, f)
        = (p + countOkFrom ok i ids.length,
           f + (ids.length - countOkFrom ok i ids.length)) := by
  intro ids
  induction ids with
  | nil => intro i p f; simp [processProducts, countOkFrom]
  | cons hd tl ih =>
      intro i p f
      have hle : countOkFrom ok (i + 1) tl.length ≤ tl.length :=
        countOkFrom_le ok tl.length (i + 1)
      by_cases hcase : ok i
      · simp only [processProducts, hcase, if_pos, List.length_cons, countOkFrom, ih,
          Prod.mk.injEq]
        exact ⟨by omega, by omega⟩
      · simp only [processProducts, hcase, List.length_cons, countOkFrom, ih,
          Bool.false_eq_true, if_false, Prod.mk.injEq]
        exact ⟨by omega, by omega⟩

/-- C3: a per-product exception increments failed_products and the loop
continues, so a single failure never aborts the job; after all products are
attempted the status is COMPLETED, with processed plus failed equal to the
resolved count; the status is FAILED exactly when the job record cannot be
loaded or scope resolution fails. -/
theorem apply_per_product_isolation (jobFound : Bool)
    (resolved : Except String (List String)) (ok : Nat → Bool) :
    (∀ ids, jobFound = true → resolved = Except.ok ids →
      (watermarkWorkerRun jobFound resolved ok).status = JobStatus.completed ∧
      (watermarkWorkerRun jobFound resolved ok).total_products = ids.length ∧
      (watermarkWorkerRun jobFound resolved ok).processed_products
        = countOkFrom ok 0 ids.length ∧
      (watermarkWorkerRun jobFound resolved ok).processed_products
        + (watermarkWorkerRun jobFound resolved ok).failed_products = ids.length) ∧
    (jobFound = false →
      (watermarkWorkerRun jobFound resolved ok).status = JobStatus.failed) ∧
    (∀ e, jobFound = true → resolved = Except.error e →
      (watermarkWorkerRun jobFound resolved ok).status = JobStatus.failed) := by
  refine ⟨?_, ?_, ?_⟩
  · intro ids hj hr
    subst hj
    subst hr
    have hle : countOkFrom ok 0 ids.length ≤ ids.length :=
      countOkFrom_le ok ids.length 0
    refine ⟨rfl, rfl, ?_, ?_⟩
    · show (processProducts ok ids 0 (0, 0)).1 = countOkFrom ok 0 ids.length
      rw [processProducts_eq]
      dsimp only
      omega
    · show (processProducts ok ids 0 (0, 0)).1
        + (processProducts ok ids 0 (0, 0)).2 = ids.length
      rw [processProducts_eq]
      dsimp only
      omega
  · intro hj
    subst hj
    rfl
  · intro e hj hr
    subst hj
    subst hr
    rfl

/-- C3 witness: two products where the second throws: the job still completes
with one processed and one failed. -/
theorem apply_per_product_isolation_witness :
    (watermarkWorkerRun true (Except.ok ["gidA", "gidB"])
      (fun i => decide (i = 0))).status = JobStatus.completed ∧
    (watermarkWorkerRun true (Except.ok ["gidA", "gidB"])
        (fun i => decide (i = 0))).processed_products
      + (watermarkWorkerRun true (Except.ok ["gidA", "gidB"])
        (fun i => decide (i = 0))).failed_products = 2 := by
  have h := (apply_per_product_isolation true (Except.ok ["gidA", "gidB"])
    (fun i => decide (i = 0))).1 ["gidA", "gidB"] rfl rfl
  exact ⟨h.1, h.2.2.2⟩

/-! ## Job progress counters (jobs repository and both workers) -/

/-- The three progress columns of a watermark_jobs row. -/
structure JobCounters where
  total_products : Nat
  processed_products : Nat
  failed_products : Nat
deriving DecidableEq, Repr

/-- Modelled from the spec: setTotalProducts is imported by both workers from
the jobs repository but its definition is not among the provided sources; per
the spec, total_products may be set lazily after scope resolution, so the
operation overwrites total_products with the given count. -/
def setTotalProducts (c : JobCounters) (n : Nat) : JobCounters :=
  { c with total_products := n }

/-- incrementProcessedProducts runs UPDATE watermark_jobs SET
processed_products = processed_products + 1. -/
def incrementProcessedProducts (c : JobCounters) : JobCounters :=
  { c with processed_products := c.processed_products + 1 }

/-- incrementFailedProducts runs UPDATE watermark_jobs SET failed_products =
failed_products + 1. -/
def incrementFailedProducts (c : JobCounters) : JobCounters :=
  { c with failed_products := c.failed_products + 1 }

/-- The direct UPDATE in the rollback worker: SET processed_products = 0.
failed_products is not reset. -/
def resetProcessedProducts (c : JobCounters) : JobCounters :=
  { c with processed_products := 0 }

/-- Counter mutations issued by the workers. -/
inductive CounterOp
  | setTotal (n : Nat)
  | incProcessed
  | incFailed
  | resetProcessed
deriving DecidableEq, Repr

/-- Apply one counter mutation. -/
def applyCounterOp (c : JobCounters) : CounterOp → JobCounters
  | CounterOp.setTotal n => setTotalProducts c n
  | CounterOp.incProcessed => incrementProcessedProducts c
  | CounterOp.incFailed => incrementFailedProducts c
  | CounterOp.resetProcessed => resetProcessedProducts c

/-- Apply a sequence of counter mutations in order. -/
def runCounterOps (c : JobCounters) : List CounterOp → JobCounters
  | [] => c
  | op :: rest => runCounterOps (applyCounterOp c op) rest

/-- The invariant stated in the spec data model. -/
def countersInvariant (c : JobCounters) : Prop :=
  c.processed_products + c.failed_products ≤ c.total_products

instance (c : JobCounters) : Decidable (countersInvariant c) :=
  inferInstanceAs (Decidable (_ ≤ _))

/-- Counter mutations of one apply run, from watermarkWorker: set the
resolved total, then one increment per attempted product. -/
def applyJobOps (n : Nat) (outcomes : List Bool) : List CounterOp :=
  CounterOp.setTotal n ::
    outcomes.map (fun b => if b then CounterOp.incProcessed else CounterOp.incFailed)

/-- Counter mutations of one rollback run, from rollbackWorker: set total to
the number of completed items, reset processed_products to zero (failed is
left untouched), then one processed increment per item whose restoration is
verified. -/
def rollbackJobOps (k : Nat) (verifies : List Bool) : List CounterOp :=
  CounterOp.setTotal k :: CounterOp.resetProcessed ::
    (verifies.filter (fun b => b)).map (fun _ => CounterOp.incProcessed)

/-- State of a fresh job after an apply run of two products, one of which
failed, followed by a rollback run over the single completed item. -/
def counterScenario : JobCounters :=
  runCounterOps
    (runCounterOps
      { total_products := 0, processed_products := 0, failed_products := 0 }
      (applyJobOps 2 [true, false]))
    (rollbackJobOps 1 [true])

/-- C7 counterexample: after rolling back a job that had one failed product,
processed_products + failed_products exceeds total_products, because the
rollback run resets processed_products but not failed_products. -/
theorem counters_invariant_counterexample :
    ¬ countersInvariant counterScenario ∧
    counterScenario.total_products = 1 ∧
    counterScenario.processed_products = 1 ∧
    counterScenario.failed_products = 1 := by
  refine ⟨by decide, by decide, by decide, by decide⟩

/-- Running only per-product increments adds the success and failure counts
of the outcomes to the incoming state and keeps the total. -/
theorem runCounterOps_increments (outcomes : List Bool) :
    ∀ (t p f : Nat),
      runCounterOps { total_products := t, processed_products := p, failed_products := f }
        (outcomes.map (fun b => if b then CounterOp.incProcessed else CounterOp.incFailed))
        = { total_products := t,
            processed_products := p + outcomes.countP (fun b => b),
            failed_products := f + outcomes.countP (fun b => !b) } := by
  induction outcomes with
  | nil => intro t p f; simp [runCounterOps, List.countP_nil]
  | cons b rest ih =>
      intro t p f
      cases b
      · simp only [List.map_cons, runCounterOps, applyCounterOp,
          incrementFailedProducts, ih]
        simp only [List.countP_cons, JobCounters.mk.injEq]
        simp
        omega
      · simp only [List.map_cons, runCounterOps, applyCounterOp,
          incrementProcessedProducts, ih]
        simp only [List.countP_cons, JobCounters.mk.injEq]
        simp
        omega

/-- Running a list of processed increments adds its length to
processed_products. -/
theorem runCounterOps_incProcessed_only :
    ∀ (ops : List CounterOp), (∀ o ∈ ops, o = CounterOp.incProcessed) →
      ∀ (t p f : Nat),
        runCounterOps { total_products := t, processed_products := p, failed_products := f } ops
          = { total_products := t, processed_products := p + ops.length,
              failed_products := f } := by
  intro ops
  induction ops with
  | nil => intro _ t p f; simp [runCounterOps]
  | cons o rest ih =>
      intro hall t p f
      have ho : o = CounterOp.incProcessed := hall o (List.mem_cons_self _ _)
      subst ho
      simp only [runCounterOps, applyCounterOp, incrementProcessedProducts]
      rw [ih (fun o ho => hall o (List.mem_cons_of_mem _ ho))]
      simp only [List.length_cons]
      congr 1
      omega

/-- Counting the true and the false entries of a Bool list covers it. -/
theorem countP_id_add_countP_not (l : List Bool) :
    l.countP (fun b => b) + l.countP (fun b => !b) = l.length := by
  induction l with
  | nil => simp
  | cons b rest ih => cases b <;> simp [List.countP_cons] <;> omega

/-- C7 amended: the invariant processed + failed less or equal total holds
after every operation of an apply run; in a rollback run, which resets
processed_products but not failed_products, it holds from the counter reset
onward provided failed_products is zero when the rollback begins; with a
nonzero failed_products the invariant can be violated during rollback. -/
theorem counters_invariant_amended :
    (∀ (n : Nat) (outcomes : List Bool), outcomes.length ≤ n →
      ∀ j, countersInvariant (runCounterOps
        { total_products := 0, processed_products := 0, failed_products := 0 }
        ((applyJobOps n outcomes).take j))) ∧
    (∀ (c : JobCounters) (k : Nat) (verifies : List Bool),
      c.failed_products = 0 → verifies.length ≤ k →
      ∀ j, countersInvariant
        (runCounterOps c ((rollbackJobOps k verifies).take (j + 2)))) := by
  constructor
  · intro n outcomes hlen j
    cases j with
    | zero =>
        simp only [List.take_zero, runCounterOps]
        exact Nat.le_refl 0
    | succ jj =>
        rw [applyJobOps, List.take_succ_cons]
        simp only [runCounterOps, applyCounterOp, setTotalProducts]
        rw [← List.map_take, runCounterOps_increments]
        unfold countersInvariant
        dsimp only
        have h1 := countP_id_add_countP_not (outcomes.take jj)
        have h2 : (outcomes.take jj).length ≤ outcomes.length :=
          List.length_take_le' jj outcomes
        omega
  · intro c k verifies hf hlen j
    rw [rollbackJobOps]
    rw [show j + 2 = (j + 1) + 1 from rfl, List.take_succ_cons, List.take_succ_cons]
    simp only [runCounterOps, applyCounterOp, setTotalProducts, resetProcessedProducts]
    rw [runCounterOps_incProcessed_only _ ?hall k 0 c.failed_products]
    case hall =>
      intro o ho
      have hmem := List.mem_of_mem_take ho
      obtain ⟨a, -, rfl⟩ := List.mem_map.1 hmem
      rfl
    unfold countersInvariant
    dsimp only
    have h1 : ((verifies.filter (fun b => b)).map
        (fun _ => CounterOp.incProcessed) |>.take j).length
        ≤ ((verifies.filter (fun b => b)).map (fun _ => CounterOp.incProcessed)).length :=
      List.length_take_le' _ _
    rw [List.length_map] at h1
    have h2 : (verifies.filter (fun b => b)).length ≤ verifies.length :=
      List.length_filter_le _ _
    omega

/-- C7 amended witness: the invariant holds after the first three operations
of an apply run of two products with one failure, and after the reset of a
clean rollback. -/
theorem counters_invariant_amended_witness :
    countersInvariant (runCounterOps
      { total_products := 0, processed_products := 0, failed_products := 0 }
      ((applyJobOps 2 [true, false]).take 3)) ∧
    countersInvariant (runCounterOps
      { total_products := 2, processed_products := 2, failed_products := 0 }
      ((rollbackJobOps 2 [true, true]).take (2 + 2))) := by
  constructor
  · exact counters_invariant_amended.1 2 [true, false] (by decide) 3
  · exact counters_invariant_amended.2
      { total_products := 2, processed_products := 2, failed_products := 0 }
      2 [true, true] rfl (by decide) 2

/-! ## Rollback Reconciler (rollbackWorker.js) -/

/-- JOB_ITEM_STATUS enum. -/
inductive ItemStatus
  | pending
  | processing
  | completed
  | failed
  | rolled_back
  | skipped
deriving DecidableEq, Repr

/-- The columns of a watermark_job_items row the rollback worker reads. -/
structure JobItem where
  id : Nat
  product_id : String
  original_media_url : Option String
  new_media_id : Option String
  variant_ids : List String
  status : ItemStatus
deriving DecidableEq, Repr

/-- GET_JOB_ITEMS_FOR_ROLLBACK: SELECT * FROM watermark_job_items WHERE
job_id = $1 AND status = completed, in creation order. -/
def getJobItemsForRollback (db : List JobItem) : List JobItem :=
  db.filter (fun it => it.status == ItemStatus.completed)

/-- Boolean prefix test mirroring String.startsWith, implemented over the
character list so proofs can evaluate it. -/
def strStartsWith (s pre : String) : Bool :=
  List.isPrefixOf pre.data s.data

/-- One poll of GET_MEDIA_STATUS: a response carrying the optional status
field and whether an image url is present, or a thrown request (the catch
logs and the loop retries). -/
inductive PollOutcome
  | ok (status : Option String) (hasImageUrl : Bool)
  | throw
deriving DecidableEq, Repr

/-- What one poll response makes the loop do. -/
inductive PollStep
  | ready
  | failedPoll
  | waitMore
deriving DecidableEq, Repr

/-- One iteration body of waitForMediaReady: PROCESSED or READY returns true,
FAILED returns false, a falsy status field together with an image url returns
true, anything else (including a thrown poll) waits and retries. -/
def pollStep (o : PollOutcome) : PollStep :=
  match o with
  | PollOutcome.throw => PollStep.waitMore
  | PollOutcome.ok st hasUrl =>
      if st = some "PROCESSED" ∨ st = some "READY" then PollStep.ready
      else if st = some "FAILED" then PollStep.failedPoll
      else if (st = none ∨ st = some "") ∧ hasUrl = true then PollStep.ready
      else PollStep.waitMore

/-- MAX_RETRIES of waitForMediaReady. -/
def MAX_RETRIES : Nat := 10

/-- The bounded polling loop, fuelled by the remaining retries. -/
def waitForMediaReadyAux (poll : Nat → PollOutcome) : Nat → Nat → Bool
  | 0, _ => false
  | fuel + 1, i =>
      match pollStep (poll i) with
      | PollStep.ready => true
      | PollStep.failedPoll => false
      | PollStep.waitMore => waitForMediaReadyAux poll fuel (i + 1)

/-- waitForMediaReady: polls the media status up to MAX_RETRIES times and
reports whether the restored media reached a ready state. -/
def waitForMediaReady (poll : Nat → PollOutcome) : Bool :=
  waitForMediaReadyAux poll MAX_RETRIES 0

/-- External-world oracle of one rollback run: what a GID resolves to, the
media id PRODUCT_CREATE_MEDIA returns for each item (none models
mediaUserErrors or a thrown request), and the poll responses per created
media id. -/
structure RollbackEnv where
  gidUrl : String → Option String
  createMedia : Nat → Option String
  poll : String → Nat → PollOutcome

/-- Embedding of resolveOriginalUrl: a falsy source gives null, an http url
is returned as is, a gid is resolved through GET_FILE_URL with the gid itself
as fallback, and anything else falls through unchanged. -/
def resolveOriginalUrl (env : RollbackEnv) (originalSource : Option String) :
    Option String :=
  match originalSource with
  | none => none
  | some s =>
      if s = "" then none
      else if strStartsWith s "http" then some s
      else if strStartsWith s "gid://" then
        match env.gidUrl s with
        | some url => some url
        | none => some s
      else some s

/-- External media mutations issued while rolling one item back, tagged with
the item id that caused them. -/
inductive RAction
  | createMedia (itemId : Nat) (productId : String)
  | reorderMedia (itemId : Nat) (mediaId : String)
  | updateVariants (itemId : Nat) (mediaId : String)
  | deleteMedia (itemId : Nat) (mediaId : String)
deriving DecidableEq, Repr

/-- The item id an action is tagged with. -/
def actionItemId : RAction → Nat
  | RAction.createMedia i _ => i
  | RAction.reorderMedia i _ => i
  | RAction.updateVariants i _ => i
  | RAction.deleteMedia i _ => i

/-- Embedding of the per-item body of the rollback worker: resolve the
original source (skip when unresolvable), recreate it as product media,
verify the created media with waitForMediaReady, and only when verification
succeeds reorder it to the front, reassign the variants, delete the
watermarked replacement and mark the item rolled back; on every failure path
the item is left untouched and the loop continues.  The Bool reports whether
the item was marked rolled back. -/
def processRollbackItem (env : RollbackEnv) (item : JobItem) :
    List RAction × Bool :=
  match resolveOriginalUrl env item.original_media_url with
  | none => ([], false)
  | some _ =>
      match env.createMedia item.id with
      | none => ([RAction.createMedia item.id item.product_id], false)
      | some mediaId =>
          if waitForMediaReady (env.poll mediaId) then
            (RAction.createMedia item.id item.product_id ::
              RAction.reorderMedia item.id mediaId ::
              ((if item.variant_ids.isEmpty then []
                else [RAction.updateVariants item.id mediaId])
               ++ (match item.new_media_id with
                   | some nm => [RAction.deleteMedia item.id nm]
                   | none => [])),
             true)
          else
            ([RAction.createMedia item.id item.product_id], false)

/-- C1: a delete of the watermarked replacement appears in the actions of a
rollback item only when media creation succeeded and waitForMediaReady
returned success for the created media; the delete is unreachable on every
failure path. -/
theorem rollback_delete_only_after_verify (env : RollbackEnv) (item : JobItem)
    (nm : String)
    (hdel : RAction.deleteMedia item.id nm ∈ (processRollbackItem env item).1) :
    ∃ mediaId, env.createMedia item.id = some mediaId ∧
      waitForMediaReady (env.poll mediaId) = true := by
  unfold processRollbackItem at hdel
  cases hres : resolveOriginalUrl env item.original_media_url with
  | none =>
      rw [hres] at hdel
      simp at hdel
  | some u =>
      rw [hres] at hdel
      cases hcm : env.createMedia item.id with
      | none =>
          rw [hcm] at hdel
          simp at hdel
      | some mediaId =>
          rw [hcm] at hdel
          dsimp only at hdel
          by_cases hv : waitForMediaReady (env.poll mediaId) = true
          · exact ⟨mediaId, rfl, hv⟩
          · rw [if_neg hv] at hdel
            simp at hdel

/-- An environment in which every call succeeds and the first poll reports
PROCESSED. -/
def rbEnvAllOk : RollbackEnv :=
  { gidUrl := fun _ => none,
    createMedia := fun _ => some "gidMediaNew",
    poll := fun _ _ => PollOutcome.ok (some "PROCESSED") true }

/-- A completed job item with an archived http source and a watermarked
replacement. -/
def rbItemOk : JobItem :=
  { id := 1, product_id := "gidProduct1",
    original_media_url := some "http://cdn.example/img.jpg",
    new_media_id := some "gidMediaWm",
    variant_ids := [], status := ItemStatus.completed }

/-- C1 witness: in the all-success environment the delete is reached, and the
theorem yields the verification of the created media. -/
theorem rollback_delete_only_after_verify_witness :
    RAction.deleteMedia 1 "gidMediaWm" ∈ (processRollbackItem rbEnvAllOk rbItemOk).1 ∧
    waitForMediaReady (rbEnvAllOk.poll "gidMediaNew") = true := by
  have hdel : RAction.deleteMedia 1 "gidMediaWm"
      ∈ (processRollbackItem rbEnvAllOk rbItemOk).1 := by decide
  obtain ⟨mid, hmid, hready⟩ :=
    rollback_delete_only_after_verify rbEnvAllOk rbItemOk "gidMediaWm" hdel
  have hm : mid = "gidMediaNew" := by
    have hx : some "gidMediaNew" = some mid := hmid
    exact (Option.some.injEq _ _ ▸ hx).symm
  exact ⟨hdel, by rw [← hm]; exact hready⟩

/-- ROLLBACK_STATUS enum. -/
inductive RollbackStatus
  | pending
  | processing
  | completed
  | failed
deriving DecidableEq, Repr

/-- Observable outcome of one rollback-worker run. -/
structure RollbackRunResult where
  ranRun : Bool
  items_to_rollback : Nat
  items_rolled_back : Nat
  runStatus : RollbackStatus
  finalItems : List JobItem
  trace : List RAction
deriving Repr

/-- Ids of the items marked rolled back during the run. -/
def rolledIds (env : RollbackEnv) (db : List JobItem) : List Nat :=
  ((getJobItemsForRollback db).filter
    (fun it => (processRollbackItem env it).2)).map JobItem.id

/-- Embedding of the rollback worker body: select the completed items (when
none, return without creating a run); otherwise create and start a
RollbackRun sized by the selection, reset the job progress counters, process
every item in order, and finally mark the job rolled_back and complete the
run with status completed regardless of the per-item outcomes. -/
def rollbackWorkerRun (env : RollbackEnv) (db : List JobItem) : RollbackRunResult :=
  if (getJobItemsForRollback db).isEmpty then
    { ranRun := false, items_to_rollback := 0, items_rolled_back := 0,
      runStatus := RollbackStatus.pending, finalItems := db, trace := [] }
  else
    { ranRun := true,
      items_to_rollback := (getJobItemsForRollback db).length,
      items_rolled_back := (getJobItemsForRollback db).countP
        (fun it => (processRollbackItem env it).2),
      runStatus := RollbackStatus.completed,
      finalItems := db.map (fun it =>
        if it.id ∈ rolledIds env db then { it with status := ItemStatus.rolled_back }
        else it),
      trace := (getJobItemsForRollback db).flatMap
        (fun it => (processRollbackItem env it).1) }

/-- Selected items are completed rows of the table. -/
theorem mem_getJobItemsForRollback {db : List JobItem} {it : JobItem}
    (h : it ∈ getJobItemsForRollback db) :
    it ∈ db ∧ it.status = ItemStatus.completed := by
  have hf := List.mem_filter.1 h
  exact ⟨hf.1, by simpa using hf.2⟩

/-- Every action of one rollback item is tagged with that item id. -/
theorem processRollbackItem_itemId (env : RollbackEnv) (item : JobItem) :
    ∀ a ∈ (processRollbackItem env item).1, actionItemId a = item.id := by
  intro a ha
  unfold processRollbackItem at ha
  cases hres : resolveOriginalUrl env item.original_media_url with
  | none =>
      rw [hres] at ha
      simp at ha
  | some u =>
      rw [hres] at ha
      cases hcm : env.createMedia item.id with
      | none =>
          rw [hcm] at ha
          dsimp only at ha
          simp only [List.mem_singleton] at ha
          subst ha
          rfl
      | some mediaId =>
          rw [hcm] at ha
          dsimp only at ha
          by_cases hv : waitForMediaReady (env.poll mediaId) = true
          · rw [if_pos hv] at ha
            dsimp only at ha
            rcases List.mem_cons.1 ha with rfl | ha2
            · rfl
            rcases List.mem_cons.1 ha2 with rfl | ha3
            · rfl
            rcases List.mem_append.1 ha3 with ha4 | ha5
            · by_cases hvar : item.variant_ids.isEmpty = true
              · rw [if_pos hvar] at ha4
                simp at ha4
              · rw [if_neg hvar] at ha4
                simp only [List.mem_singleton] at ha4
                subst ha4
                rfl
            · cases hnm : item.new_media_id with
              | none =>
                  rw [hnm] at ha5
                  simp at ha5
              | some nm =>
                  rw [hnm] at ha5
                  simp only [List.mem_singleton] at ha5
                  subst ha5
                  rfl
          · rw [if_neg hv] at ha
            simp only [List.mem_singleton] at ha
            subst ha
            rfl

/-- Every action of the run trace comes from a selected item. -/
theorem rollbackWorkerRun_trace_src (env : RollbackEnv) (db : List JobItem) :
    ∀ a ∈ (rollbackWorkerRun env db).trace,
      ∃ it ∈ getJobItemsForRollback db, a ∈ (processRollbackItem env it).1 := by
  intro a ha
  unfold rollbackWorkerRun at ha
  by_cases hempty : (getJobItemsForRollback db).isEmpty = true
  · rw [if_pos hempty] at ha
    simp at ha
  · rw [if_neg hempty] at ha
    dsimp only at ha
    obtain ⟨it, hit, hact⟩ := List.mem_flatMap.1 ha
    exact ⟨it, hit, hact⟩

/-- A member reported false by the predicate makes the count strictly less
than the length. -/
theorem countP_lt_length_of_mem {α : Type} {p : α → Bool} {l : List α} {a : α}
    (ha : a ∈ l) (hpa : p a = false) : l.countP p < l.length := by
  induction l with
  | nil => cases ha
  | cons hd tl ih =>
      rw [List.countP_cons, List.length_cons]
      rcases List.mem_cons.1 ha with rfl | hmem
      · have hle : tl.countP p ≤ tl.length := List.countP_le_length p
        rw [hpa]
        simp only [Bool.false_eq_true, if_false]
        omega
      · have := ih hmem
        have hif : (if p hd = true then 1 else 0) ≤ 1 := by split <;> omega
        omega

/-- When the restored media cannot be verified, the item produces only the
create call and is not marked rolled back. -/
theorem processRollbackItem_not_verified (env : RollbackEnv) (item : JobItem)
    (mid : String)
    (hurl : (resolveOriginalUrl env item.original_media_url).isSome = true)
    (hcm : env.createMedia item.id = some mid)
    (hready : waitForMediaReady (env.poll mid) = false) :
    processRollbackItem env item
      = ([RAction.createMedia item.id item.product_id], false) := by
  unfold processRollbackItem
  cases hres : resolveOriginalUrl env item.original_media_url with
  | none =>
      rw [hres] at hurl
      simp at hurl
  | some u =>
      dsimp only
      rw [hcm]
      dsimp only
      rw [if_neg (by simp [hready])]

/-- Record-update in finalItems keeps the item id. -/
theorem finalItems_update_id (env : RollbackEnv) (db : List JobItem) (x : JobItem) :
    (if x.id ∈ rolledIds env db then { x with status := ItemStatus.rolled_back }
     else x).id = x.id := by
  split <;> rfl

/-- C9: re-running rollback over a job whose item is already rolled_back is a
no-op for that item: the selection returns only completed items, so the item
is never selected, no external action of the run is tagged with its id (in
particular its replacement media is never deleted or detached again), and its
status is unchanged. -/
theorem rollback_rerun_noop (env : RollbackEnv) (db : List JobItem) (i : JobItem)
    (hmem : i ∈ db) (hstat : i.status = ItemStatus.rolled_back)
    (hnodup : (db.map JobItem.id).Nodup) :
    i ∉ getJobItemsForRollback db ∧
    (∀ a ∈ (rollbackWorkerRun env db).trace, actionItemId a ≠ i.id) ∧
    (∀ it ∈ (rollbackWorkerRun env db).finalItems, it.id = i.id →
      it.status = ItemStatus.rolled_back) := by
  have hinj := List.inj_on_of_nodup_map hnodup
  refine ⟨?_, ?_, ?_⟩
  · intro hbad
    have hc := (mem_getJobItemsForRollback hbad).2
    rw [hstat] at hc
    exact ItemStatus.noConfusion hc
  · intro a ha heq
    obtain ⟨it, hit, hact⟩ := rollbackWorkerRun_trace_src env db a ha
    have hid : it.id = i.id := by
      rw [← processRollbackItem_itemId env it a hact]
      exact heq
    have hit_db := (mem_getJobItemsForRollback hit).1
    have hii : it = i := hinj hit_db hmem hid
    have hc := (mem_getJobItemsForRollback hit).2
    rw [hii, hstat] at hc
    exact ItemStatus.noConfusion hc
  · intro it hit hid
    unfold rollbackWorkerRun at hit
    by_cases hempty : (getJobItemsForRollback db).isEmpty = true
    · rw [if_pos hempty] at hit
      dsimp only at hit
      have hii : it = i := hinj hit hmem hid
      rw [hii]
      exact hstat
    · rw [if_neg hempty] at hit
      dsimp only at hit
      obtain ⟨it0, hit0, rfl⟩ := List.mem_map.1 hit
      rw [finalItems_update_id env db it0] at hid
      have hii : it0 = i := hinj hit0 hmem hid
      by_cases hroll : it0.id ∈ rolledIds env db
      · rw [if_pos hroll]
      · rw [if_neg hroll, hii]
        exact hstat

/-- A job item already rolled back by a previous run. -/
def rbItemRolled : JobItem :=
  { id := 1, product_id := "gidProduct1",
    original_media_url := some "http://cdn.example/img.jpg",
    new_media_id := some "gidMediaWm",
    variant_ids := [], status := ItemStatus.rolled_back }

/-- A second completed job item. -/
def rbItem2 : JobItem :=
  { id := 2, product_id := "gidProduct2",
    original_media_url := some "http://cdn.example/img2.jpg",
    new_media_id := some "gidMediaWm2",
    variant_ids := [], status := ItemStatus.completed }

/-- C9 witness: the rolled-back item of a two-item table is not selected. -/
theorem rollback_rerun_noop_witness :
    rbItemRolled ∉ getJobItemsForRollback [rbItemRolled, rbItem2] :=
  (rollback_rerun_noop rbEnvAllOk [rbItemRolled, rbItem2] rbItemRolled
    (by decide) rfl (by decide)).1

/-- C8: when restoration verification fails for one selected item, that item
keeps status completed, none of its media is deleted, every other item whose
restoration verifies is still rolled back, the run finishes with status
completed, and items_rolled_back stays strictly below items_to_rollback. -/
theorem rollback_timeout_partial_completion (env : RollbackEnv) (db : List JobItem)
    (i : JobItem) (mid : String)
    (hmem : i ∈ getJobItemsForRollback db)
    (hnodup : (db.map JobItem.id).Nodup)
    (hurl : (resolveOriginalUrl env i.original_media_url).isSome = true)
    (hcm : env.createMedia i.id = some mid)
    (hready : waitForMediaReady (env.poll mid) = false) :
    (rollbackWorkerRun env db).runStatus = RollbackStatus.completed ∧
    (∀ it ∈ (rollbackWorkerRun env db).finalItems, it.id = i.id →
      it.status = ItemStatus.completed) ∧
    (∀ m, RAction.deleteMedia i.id m ∉ (rollbackWorkerRun env db).trace) ∧
    (rollbackWorkerRun env db).items_rolled_back
      < (rollbackWorkerRun env db).items_to_rollback ∧
    (∀ j ∈ getJobItemsForRollback db, (processRollbackItem env j).2 = true →
      j.id ∈ rolledIds env db) := by
  have hitem := processRollbackItem_not_verified env i mid hurl hcm hready
  have hne : ¬ (getJobItemsForRollback db).isEmpty = true := by
    intro hbad
    exact List.ne_nil_of_mem hmem (List.isEmpty_iff.1 hbad)
  have hinj := List.inj_on_of_nodup_map hnodup
  have hi_db := (mem_getJobItemsForRollback hmem).1
  have hi_cmp := (mem_getJobItemsForRollback hmem).2
  have hsnd : (processRollbackItem env i).2 = false := by rw [hitem]
  have hnotrolled : i.id ∉ rolledIds env db := by
    intro hbad
    obtain ⟨it1, hit1, hid1⟩ := List.mem_map.1 hbad
    have hmf := List.mem_filter.1 hit1
    have hii : it1 = i := hinj (mem_getJobItemsForRollback hmf.1).1 hi_db hid1
    have htrue : (processRollbackItem env i).2 = true := by
      rw [← hii]
      simpa using hmf.2
    rw [hsnd] at htrue
    exact Bool.noConfusion htrue
  refine ⟨?_, ?_, ?_, ?_, ?_⟩
  · unfold rollbackWorkerRun
    rw [if_neg hne]
  · intro it hit hid
    unfold rollbackWorkerRun at hit
    rw [if_neg hne] at hit
    dsimp only at hit
    obtain ⟨it0, hit0, rfl⟩ := List.mem_map.1 hit
    rw [finalItems_update_id env db it0] at hid
    have hii : it0 = i := hinj hit0 hi_db hid
    rw [hii, if_neg hnotrolled]
    exact hi_cmp
  · intro m hbad
    obtain ⟨it, hit, hact⟩ := rollbackWorkerRun_trace_src env db _ hbad
    have hid : it.id = i.id := by
      have h1 := processRollbackItem_itemId env it _ hact
      simpa [actionItemId] using h1.symm
    have hii : it = i := hinj (mem_getJobItemsForRollback hit).1 hi_db hid
    rw [hii, hitem] at hact
    simp at hact
  · unfold rollbackWorkerRun
    rw [if_neg hne]
    dsimp only
    exact countP_lt_length_of_mem hmem hsnd
  · intro j hj hsnd2
    exact List.mem_map.2 ⟨j, List.mem_filter.2 ⟨hj, by simpa using hsnd2⟩, rfl⟩

/-- An environment in which the created media for item 1 never becomes ready
(every poll throws) while everything else succeeds. -/
def rbEnvTimeout : RollbackEnv :=
  { gidUrl := fun _ => none,
    createMedia := fun itemId => if itemId = 1 then some "mid1" else some "mid2",
    poll := fun mid _ =>
      if mid = "mid1" then PollOutcome.throw
      else PollOutcome.ok (some "PROCESSED") true }

/-- C8 witness: on a two-item table where verification of the first item
times out, the run completes with a strictly partial counter. -/
theorem rollback_timeout_partial_completion_witness :
    (rollbackWorkerRun rbEnvTimeout [rbItemOk, rbItem2]).runStatus
      = RollbackStatus.completed ∧
    (rollbackWorkerRun rbEnvTimeout [rbItemOk, rbItem2]).items_rolled_back
      < (rollbackWorkerRun rbEnvTimeout [rbItemOk, rbItem2]).items_to_rollback := by
  have h := rollback_timeout_partial_completion rbEnvTimeout [rbItemOk, rbItem2]
    rbItemOk "mid1" (by decide) (by decide) (by decide) (by decide) (by decide)
  exact ⟨h.1, h.2.2.2.1⟩

end WatermarkSpec
